import Mathlib

set_option linter.unusedVariables false

/-!
Shallow embedding of the Aura storefront's translation, checkout and
remote-service logic: the `LanguageProvider` in `src/components/Navbar.tsx`,
the checkout handlers in `src/components/Checkout.tsx`, and the exported
service functions in `src/services/geminiService.ts`.
-/

namespace Aura

/-- JS `String.prototype.toLowerCase`, character-wise. -/
def jsToLower (s : String) : String := ⟨s.data.map Char.toLower⟩

/-- Test that `pat` occurs at the start of a character list. -/
def startsWithL : List Char → List Char → Bool
  | [], _ => true
  | _ :: _, [] => false
  | c :: cs, d :: ds => c == d && startsWithL cs ds

/-- Test that `pat` occurs somewhere in a character list: JS `includes`. -/
def containsL (pat : List Char) : List Char → Bool
  | [] => pat.isEmpty
  | c :: rest => startsWithL pat (c :: rest) || containsL pat rest

/-- JS `s.includes(pat)`. -/
def strIncludes (s pat : String) : Bool := containsL pat.data s.data

/-- Brand/slogan protection test inside `translate` (Navbar.tsx line 300):
`text.toLowerCase().includes('quiet living') || text === 'Aura'`. -/
def exempt (text : String) : Bool :=
  strIncludes (jsToLower text) "quiet living" || text == "Aura"

/-- `getCacheKey` (Navbar.tsx line 243). -/
def getCacheKey (text lang : String) : String := lang ++ "|" ++ text

/-- JS object read `m[k]` on the cache record; the most recent write for a key
shadows older ones. -/
def recGet (m : List (String × String)) (k : String) : Option String :=
  (m.find? (fun p => p.1 == k)).map Prod.snd

/-- JS truthiness of `m[k]`: an absent key and an empty-string value are both
falsy. -/
def truthyGet (m : List (String × String)) (k : String) : Option String :=
  match recGet m k with
  | some v => if v = "" then none else some v
  | none => none

/-- JS `Set.prototype.add`: insertion-ordered, ignores duplicates. -/
def addToSet (l : List String) (t : String) : List String :=
  if t ∈ l then l else l ++ [t]

/-- State owned by the `LanguageProvider` (Navbar.tsx lines 236–241): the
current language, the translation cache record, the `missingTranslations`
ref (a `Set`, kept as its insertion-ordered list), and the loading flag. -/
structure ProviderState where
  language : String
  cache : List (String × String)
  missing : List String
  isTranslating : Bool
  deriving DecidableEq

/-- `translate` (Navbar.tsx lines 296–310). Returns the displayed string and
the successor state (the only mutation is the `missingTranslations` ref). -/
def translate (s : ProviderState) (text : String) : String × ProviderState :=
  if s.language = "English" ∨ text = "" then (text, s)
  else if exempt text then (text, s)
  else
    match truthyGet s.cache (getCacheKey text s.language) with
    | some v => (v, s)
    | none => (text, { s with missing := addToSet s.missing text })

/-- `handleSetLanguage` (Navbar.tsx lines 245–255). -/
def handleSetLanguage (s : ProviderState) (lang : String) : ProviderState :=
  if lang = s.language then s
  else if lang ≠ "English" then
    { s with language := lang, isTranslating := true, missing := [] }
  else
    { s with language := lang, isTranslating := false }

/-- The `needed` filter in `processTranslations` (Navbar.tsx line 262):
pending texts whose cache entry is JS-falsy for the current language. -/
def neededOf (s : ProviderState) : List String :=
  s.missing.filter (fun t => (truthyGet s.cache (getCacheKey t s.language)).isNone)

/-- Outcome of one remote structured-output call as seen by the service layer:
the HTTP call may throw, the response text may be empty, `JSON.parse` may
throw, or a value of the schema's type is obtained. -/
inductive RemoteResp (α : Type) where
  | netError : RemoteResp α
  | noText : RemoteResp α
  | parseError : RemoteResp α
  | parsed (a : α) : RemoteResp α
  deriving DecidableEq

/-- A response that did not produce a parsed value. -/
def RemoteResp.isFail {α : Type} : RemoteResp α → Bool
  | .parsed _ => false
  | _ => true

/-- `translateBatch` (geminiService.ts lines 297–339): a missing API key, a
thrown call, an empty response text and a parse failure all fall back to the
input `texts`; a parsed array is returned as-is. `lang` only shapes the
prompt. -/
def translateBatch (texts : List String) (lang : String) (apiKey : Option String)
    (resp : RemoteResp (List String)) : List String :=
  match apiKey with
  | none => texts
  | some _ =>
    match resp with
    | .parsed xs => xs
    | _ => texts

/-- The cache merge in `processTranslations` (Navbar.tsx lines 273–281):
`needed.forEach((text, index) => if (results[index]) newCache[key] = results[index])`.
JS-falsy results (absent index or empty string) are skipped. -/
def mergeResults (lang : String) :
    List String → List String → List (String × String) → List (String × String)
  | [], _, cache => cache
  | _ :: _, [], cache => cache
  | t :: ts, r :: rs, cache =>
      mergeResults lang ts rs (if r = "" then cache else (getCacheKey t lang, r) :: cache)

/-- The debounced `processTranslations` body (Navbar.tsx lines 260–288) when
`translateBatch` resolves: filter `needed`, stop if empty, otherwise merge
the resolved batch into the cache and clear the loading flag. The
`missingTranslations` ref is not cleared here. -/
def processTranslations (s : ProviderState) (apiKey : Option String)
    (resp : RemoteResp (List String)) : ProviderState :=
  if neededOf s = [] then { s with isTranslating := false }
  else
    { s with isTranslating := false,
             cache := mergeResults s.language (neededOf s)
               (translateBatch (neededOf s) s.language apiKey resp) s.cache }

/-- The `catch` path of `processTranslations`: only the loading flag changes
(the `setCache` merge is skipped). -/
def processTranslationsCatch (s : ProviderState) : ProviderState :=
  { s with isTranslating := false }

/-- The language codes the Navbar can pass to `setLanguage` (`LANGUAGES`,
Navbar.tsx lines 19–26); `setLanguage` has no other call sites in the
repository. -/
def langCodes : List String :=
  ["English", "Italian", "French", "German", "Spanish", "Japanese"]

/-- Initial provider state (Navbar.tsx lines 236–241). -/
def initState : ProviderState :=
  { language := "English", cache := [], missing := [], isTranslating := false }

/-- One observable operation of the provider, as invoked by the application:
a render-time `translate` call, a language selection from the Navbar, or the
debounced batch effect (which only runs while `isTranslating` is set). -/
inductive Step : ProviderState → ProviderState → Prop
  | tr (s : ProviderState) (t : String) : Step s (translate s t).2
  | setLang (s : ProviderState) (l : String) (hl : l ∈ langCodes) :
      Step s (handleSetLanguage s l)
  | batch (s : ProviderState) (apiKey : Option String)
      (resp : RemoteResp (List String)) (h : s.isTranslating = true) :
      Step s (processTranslations s apiKey resp)
  | batchCatch (s : ProviderState) (h : s.isTranslating = true) :
      Step s (processTranslationsCatch s)

/-- Provider states reachable from the initial state by application steps. -/
def Reachable (s : ProviderState) : Prop :=
  Relation.ReflTransGen Step initState s

/-- A location suggestion row (Checkout.tsx lines 17–22, also the zip-lookup
response schema in geminiService.ts lines 351–363). -/
structure LocationSuggestion where
  zip : String
  city : String
  country : String
  region : String
  deriving DecidableEq

/-- The parsed shipping-estimate payload (geminiService.ts lines 400–406). -/
structure ShippingEstimate where
  cost : Rat
  city : String
  distance : String
  currency : String
  exchangeRate : Rat
  deriving DecidableEq

/-- The `shippingDetails` record stored by the checkout (Checkout.tsx lines
31–36). -/
structure ShippingDetails where
  city : String
  distance : String
  currency : String
  exchangeRate : Rat
  deriving DecidableEq

/-- Checkout component state (Checkout.tsx lines 25–41). -/
structure CheckoutState where
  zipCode : String
  suggestions : List LocationSuggestion
  showSuggestions : Bool
  selectedCountry : String
  shippingCost : Rat
  shippingDetails : Option ShippingDetails
  isShippingCalculated : Bool
  isCalculating : Bool
  isLookingUp : Bool
  deriving DecidableEq

/-- `activeCurrency = shippingDetails?.currency || 'USD'` (Checkout.tsx
line 47); a JS-falsy (absent or empty) currency falls back to `"USD"`. -/
def activeCurrency (s : CheckoutState) : String :=
  match s.shippingDetails with
  | some d => if d.currency = "" then "USD" else d.currency
  | none => "USD"

/-- `exchangeRate = shippingDetails?.exchangeRate || 1` (Checkout.tsx
line 48); a JS-falsy (absent or zero) rate falls back to `1`. -/
def exchangeRateOf (s : CheckoutState) : Rat :=
  match s.shippingDetails with
  | some d => if d.exchangeRate = 0 then 1 else d.exchangeRate
  | none => 1

/-- The amount `formatPrice` renders (Checkout.tsx lines 50–59): the USD
amount times the active exchange rate, displayed in `activeCurrency`. -/
def formatPriceAmount (s : CheckoutState) (amountInUSD : Rat) : Rat :=
  amountInUSD * exchangeRateOf s

/-- `lookupZipLocation` (geminiService.ts lines 341–398): missing key, thrown
call, empty response text and parse failure all return `[]`; a parsed array
is returned as-is — no truncation to 5 entries is applied locally (the bound
appears only in the prompt text). -/
def lookupZipLocation (zipCode : String) (apiKey : Option String)
    (resp : RemoteResp (List LocationSuggestion)) : List LocationSuggestion :=
  match apiKey with
  | none => []
  | some _ =>
    match resp with
    | .parsed xs => xs
    | _ => []

/-- `calculateShippingEstimate` (geminiService.ts lines 400–468): missing
key, thrown call, empty response text and parse failure all return `null`. -/
def calculateShippingEstimate (zipCode country : String) (city : Option String)
    (apiKey : Option String) (resp : RemoteResp ShippingEstimate) :
    Option ShippingEstimate :=
  match apiKey with
  | none => none
  | some _ =>
    match resp with
    | .parsed r => some r
    | _ => none

/-- `handleZipChange` (Checkout.tsx lines 61–83): resets the estimate state,
then either schedules a debounced lookup of the typed value (length ≥ 3,
spinner on) or clears the suggestion list (length < 3). The second component
is the scheduled lookup: `some val` when the debounced `lookupZipLocation`
call was scheduled, `none` otherwise (any previous timer is cancelled either
way). -/
def handleZipChange (s : CheckoutState) (val : String) :
    CheckoutState × Option String :=
  let s1 := { s with zipCode := val, isShippingCalculated := false,
                     shippingDetails := none, selectedCountry := "" }
  if 3 ≤ val.length then ({ s1 with isLookingUp := true }, some val)
  else ({ s1 with suggestions := [], showSuggestions := false }, none)

/-- The debounced continuation in `handleZipChange` (Checkout.tsx lines
73–78), applied when `lookupZipLocation` resolves with `results`. -/
def zipLookupResolve (s : CheckoutState) (results : List LocationSuggestion) :
    CheckoutState :=
  { s with suggestions := results, showSuggestions := true, isLookingUp := false }

/-- A JS promise settling either by throwing or with a value. -/
inductive CallResult (α : Type) where
  | thrown : CallResult α
  | ok (a : α) : CallResult α
  deriving DecidableEq

/-- `handleCalculateShipping` (Checkout.tsx lines 95–121), applied to the
settled result of `calculateShippingEstimate`: a parsed estimate is stored;
both `null` and a thrown call set the fixed fallback cost 25 and mark the
estimate complete, leaving `shippingDetails` at the `null` it was reset to. -/
def handleCalculateShipping (s : CheckoutState)
    (callResult : CallResult (Option ShippingEstimate)) : CheckoutState :=
  let s1 := { s with shippingDetails := none }
  match callResult with
  | .ok (some r) =>
      { s1 with shippingCost := r.cost,
                shippingDetails := some ⟨r.city, r.distance, r.currency, r.exchangeRate⟩,
                isShippingCalculated := true, isCalculating := false }
  | .ok none =>
      { s1 with shippingCost := 25, isShippingCalculated := true, isCalculating := false }
  | .thrown =>
      { s1 with shippingCost := 25, isShippingCalculated := true, isCalculating := false }

/-- The single tool-call shape the client dispatches (geminiService.ts lines
152–154): the call's name and its `args.prompt`. -/
structure FunctionCall where
  name : String
  promptArg : String
  deriving DecidableEq

/-- The reply of `sendMessageToGemini`: text plus optional image bytes. -/
structure ChatReply where
  text : String
  image : Option String
  deriving DecidableEq

/-- The remote interactions one `sendMessageToGemini` run can perform: the
first `chat.sendMessage` (yielding an optional first function call and a
text), the image-generation call's response parts (each part possibly
carrying inline data), and the two possible follow-up tool-response sends. -/
structure GeminiOracle where
  firstSend : CallResult (Option FunctionCall × String)
  imageGenParts : CallResult (List (Option String))
  toolRespSuccess : CallResult String
  toolRespFailure : CallResult String
  deriving DecidableEq

/-- `generateImageWithNanoBanana` (geminiService.ts lines 69–103): scans the
response parts for the first JS-truthy `inlineData.data`; a thrown call is
caught locally and yields `undefined`. -/
def generateImageWithNanoBanana (resp : CallResult (List (Option String))) :
    Option String :=
  match resp with
  | .thrown => none
  | .ok parts =>
      parts.findSome? (fun p =>
        match p with
        | some d => if d = "" then none else some d
        | none => none)

/-- The fixed missing-key reply text (geminiService.ts line 121). -/
def missingKeyText : String :=
  "I'm sorry, I cannot connect to the server right now. (Missing API Key)"

/-- The static apology of the outer catch (geminiService.ts line 195). -/
def apologyText : String :=
  "I apologize, but I seem to be having trouble reaching our archives at the moment."

/-- `sendMessageToGemini` (geminiService.ts lines 105–197). The inputs
`history`, `newMessage` and the optional input image only shape the sent
requests; control flow depends on the API key and the oracle's outcomes. Any
exception escaping the body is caught and mapped to the static apology. -/
def sendMessageToGemini (history : List (String × String)) (newMessage : String)
    (imageBase64 : Option String) (apiKey : Option String) (o : GeminiOracle) :
    ChatReply :=
  match apiKey with
  | none => ⟨missingKeyText, none⟩
  | some _ =>
    match o.firstSend with
    | .thrown => ⟨apologyText, none⟩
    | .ok (callOpt, text) =>
      match callOpt with
      | some call =>
        if call.name = "edit_image" then
          match generateImageWithNanoBanana o.imageGenParts with
          | some img =>
            match o.toolRespSuccess with
            | .thrown => ⟨apologyText, none⟩
            | .ok t => ⟨t, some img⟩
          | none =>
            match o.toolRespFailure with
            | .thrown => ⟨apologyText, none⟩
            | .ok t => ⟨t, none⟩
        else ⟨text, none⟩
      | none => ⟨text, none⟩

/-! ### Cache-key structure lemmas -/

/-- Splitting a list around a separator character that occurs in neither of
the two left parts determines both halves. -/
theorem bar_split : ∀ (a b u v : List Char), '|' ∉ a → '|' ∉ b →
    a ++ '|' :: u = b ++ '|' :: v → a = b ∧ u = v := by
  intro a
  induction a with
  | nil =>
    intro b u v _ hb h
    cases b with
    | nil => simpa using h
    | cons d ds =>
      rw [List.nil_append, List.cons_append] at h
      injection h with h1 h2
      subst h1
      exact absurd (List.mem_cons_self _ _) hb
  | cons c cs ih =>
    intro b u v ha hb h
    cases b with
    | nil =>
      rw [List.nil_append, List.cons_append] at h
      injection h with h1 h2
      subst h1
      exact absurd (List.mem_cons_self _ _) ha
    | cons d ds =>
      rw [List.cons_append, List.cons_append] at h
      injection h with h1 h2
      obtain ⟨hbd, hu⟩ := ih ds u v (fun hc => ha (List.mem_cons_of_mem _ hc))
        (fun hc => hb (List.mem_cons_of_mem _ hc)) h2
      subst h1
      exact ⟨by rw [hbd], hu⟩

theorem data_getCacheKey (t l : String) :
    (getCacheKey t l).data = l.data ++ '|' :: t.data := by
  have hbar : ("|" : String).data = ['|'] := rfl
  simp [getCacheKey, String.data_append, hbar]

/-- `getCacheKey` is injective on language/text pairs as long as neither
language name contains the separator `'|'`. -/
theorem getCacheKey_inj_of_barFree {t u l m : String}
    (hl : '|' ∉ l.data) (hm : '|' ∉ m.data)
    (h : getCacheKey t l = getCacheKey u m) : l = m ∧ t = u := by
  have hd := congrArg String.data h
  rw [data_getCacheKey, data_getCacheKey] at hd
  obtain ⟨h1, h2⟩ := bar_split _ _ _ _ hl hm hd
  exact ⟨String.ext h1, String.ext h2⟩

/-- For a fixed language, `getCacheKey` is injective in the text. -/
theorem getCacheKey_inj_text {t u l : String}
    (h : getCacheKey t l = getCacheKey u l) : t = u := by
  have hd := congrArg String.data h
  rw [data_getCacheKey, data_getCacheKey] at hd
  have h2 := List.append_cancel_left hd
  injection h2 with _ h3
  exact String.ext h3

/-- None of the Navbar language codes contains the cache-key separator. -/
theorem codes_barFree : ∀ l ∈ langCodes, '|' ∉ l.data := by decide

theorem code_key_inj {t u l m : String} (hl : l ∈ langCodes) (hm : m ∈ langCodes)
    (h : getCacheKey t l = getCacheKey u m) : l = m ∧ t = u :=
  getCacheKey_inj_of_barFree (codes_barFree l hl) (codes_barFree m hm) h

/-! ### Cache record lemmas -/

theorem recGet_cons (k' v' : String) (m : List (String × String)) (k : String) :
    recGet ((k', v') :: m) k = if k' = k then some v' else recGet m k := by
  by_cases h : k' = k
  · simp [recGet, List.find?, h]
  · have hb : (k' == k) = false := beq_eq_false_iff_ne.mpr h
    simp [recGet, List.find?, hb, h]

/-! ### The reachable-state invariant of the language provider -/

/-- A text that can legitimately sit in the pending set: non-empty and not
exempt from translation. -/
def goodText (t : String) : Prop := t ≠ "" ∧ exempt t = false

/-- Well-formedness of the cache record: every entry readable under a key
`getCacheKey T L` with `L` a Navbar language stores a non-empty value for a
translatable text of a non-English language. -/
def CacheGood (m : List (String × String)) : Prop :=
  ∀ T L v, L ∈ langCodes → recGet m (getCacheKey T L) = some v →
    v ≠ "" ∧ goodText T ∧ L ≠ "English"

/-- Invariant satisfied by every reachable provider state. -/
def Inv (s : ProviderState) : Prop :=
  s.language ∈ langCodes ∧
  (s.isTranslating = true → s.language ≠ "English") ∧
  (∀ t ∈ s.missing, goodText t) ∧
  CacheGood s.cache

theorem cacheGood_cons {m : List (String × String)} {t r lang : String}
    (hm : CacheGood m) (hlang : lang ∈ langCodes) (hne : lang ≠ "English")
    (ht : goodText t) (hr : r ≠ "") :
    CacheGood ((getCacheKey t lang, r) :: m) := by
  intro T L v hL hget
  rw [recGet_cons] at hget
  by_cases hk : getCacheKey t lang = getCacheKey T L
  · rw [if_pos hk] at hget
    injection hget with hv
    obtain ⟨hLl, hTt⟩ := code_key_inj hlang hL hk
    exact ⟨hv ▸ hr, hTt ▸ ht, hLl ▸ hne⟩
  · rw [if_neg hk] at hget
    exact hm T L v hL hget

theorem mergeResults_good {lang : String} (hlang : lang ∈ langCodes)
    (hne : lang ≠ "English") :
    ∀ (ts rs : List String) (m : List (String × String)),
      (∀ t ∈ ts, goodText t) → CacheGood m →
      CacheGood (mergeResults lang ts rs m) := by
  intro ts
  induction ts with
  | nil => intro rs m _ hm; simpa [mergeResults] using hm
  | cons t ts ih =>
    intro rs m hts hm
    cases rs with
    | nil => simpa [mergeResults] using hm
    | cons r rs =>
      have hstep : mergeResults lang (t :: ts) (r :: rs) m
          = mergeResults lang ts rs
              (if r = "" then m else (getCacheKey t lang, r) :: m) := rfl
      rw [hstep]
      refine ih rs _ (fun u hu => hts u (List.mem_cons_of_mem _ hu)) ?_
      by_cases hr : r = ""
      · rw [if_pos hr]; exact hm
      · rw [if_neg hr]
        exact cacheGood_cons hm hlang hne (hts t (List.mem_cons_self _ _)) hr

/-! ### Characterisation of `translate` -/

theorem translate_passthrough {s : ProviderState} {t : String}
    (h : s.language = "English" ∨ t = "") : translate s t = (t, s) := by
  rw [translate, if_pos h]

theorem translate_exempt {s : ProviderState} {t : String}
    (h : exempt t = true) : translate s t = (t, s) := by
  by_cases hg : s.language = "English" ∨ t = ""
  · rw [translate, if_pos hg]
  · rw [translate, if_neg hg, if_pos h]

theorem translate_hit {s : ProviderState} {t v : String}
    (hg : ¬(s.language = "English" ∨ t = "")) (hex : exempt t = false)
    (hget : truthyGet s.cache (getCacheKey t s.language) = some v) :
    translate s t = (v, s) := by
  rw [translate, if_neg hg, if_neg (by simp [hex]), hget]

theorem translate_miss {s : ProviderState} {t : String}
    (hg : ¬(s.language = "English" ∨ t = "")) (hex : exempt t = false)
    (hget : truthyGet s.cache (getCacheKey t s.language) = none) :
    translate s t = (t, { s with missing := addToSet s.missing t }) := by
  rw [translate, if_neg hg, if_neg (by simp [hex]), hget]

/-- A cache miss for a text already in the pending set changes nothing:
`Set.add` is idempotent. -/
theorem translate_miss_mem {s : ProviderState} {t : String}
    (hg : ¬(s.language = "English" ∨ t = "")) (hex : exempt t = false)
    (hget : truthyGet s.cache (getCacheKey t s.language) = none)
    (hmem : t ∈ s.missing) :
    translate s t = (t, s) := by
  rw [translate_miss hg hex hget, addToSet, if_pos hmem]

/-! ### Invariant preservation -/

theorem inv_translate {s : ProviderState} (h : Inv s) (t : String) :
    Inv (translate s t).2 := by
  obtain ⟨h1, h2, h3, h4⟩ := h
  by_cases hg : s.language = "English" ∨ t = ""
  · rw [translate_passthrough hg]; exact ⟨h1, h2, h3, h4⟩
  · by_cases hex : exempt t = true
    · rw [translate_exempt hex]; exact ⟨h1, h2, h3, h4⟩
    · have hex' : exempt t = false := by
        cases hfe : exempt t
        · rfl
        · exact absurd hfe hex
      cases hget : truthyGet s.cache (getCacheKey t s.language) with
      | some v => rw [translate_hit hg hex' hget]; exact ⟨h1, h2, h3, h4⟩
      | none =>
        rw [translate_miss hg hex' hget]
        refine ⟨h1, h2, ?_, h4⟩
        intro u hu
        rw [addToSet] at hu
        by_cases hmem : t ∈ s.missing
        · rw [if_pos hmem] at hu; exact h3 u hu
        · rw [if_neg hmem] at hu
          rcases List.mem_append.mp hu with hu | hu
          · exact h3 u hu
          · have : u = t := List.mem_singleton.mp hu
            subst this
            exact ⟨fun hc => hg (Or.inr hc), hex'⟩

theorem inv_setLang {s : ProviderState} (h : Inv s) {l : String}
    (hl : l ∈ langCodes) : Inv (handleSetLanguage s l) := by
  obtain ⟨h1, h2, h3, h4⟩ := h
  rw [handleSetLanguage]
  by_cases he : l = s.language
  · rw [if_pos he]; exact ⟨h1, h2, h3, h4⟩
  · rw [if_neg he]
    by_cases hE : l ≠ "English"
    · rw [if_pos hE]
      refine ⟨hl, fun _ => hE, ?_, h4⟩
      simp
    · rw [if_neg hE]
      refine ⟨hl, ?_, h3, h4⟩
      exact fun hc => (Bool.false_ne_true hc).elim

theorem inv_batch {s : ProviderState} (h : Inv s) (hT : s.isTranslating = true)
    (apiKey : Option String) (resp : RemoteResp (List String)) :
    Inv (processTranslations s apiKey resp) := by
  obtain ⟨h1, h2, h3, h4⟩ := h
  rw [processTranslations]
  by_cases hn : neededOf s = []
  · rw [if_pos hn]
    exact ⟨h1, fun hc => (Bool.false_ne_true hc).elim, h3, h4⟩
  · rw [if_neg hn]
    refine ⟨h1, fun hc => (Bool.false_ne_true hc).elim, h3, ?_⟩
    refine mergeResults_good h1 (h2 hT) _ _ _ ?_ h4
    intro u hu
    exact h3 u (List.mem_filter.mp hu).1

theorem inv_batchCatch {s : ProviderState} (h : Inv s) :
    Inv (processTranslationsCatch s) := by
  obtain ⟨h1, h2, h3, h4⟩ := h
  exact ⟨h1, fun hc => (Bool.false_ne_true hc).elim, h3, h4⟩

theorem inv_init : Inv initState := by
  refine ⟨by decide, fun hc => (Bool.false_ne_true hc).elim, ?_, ?_⟩
  · simp [initState]
  intro T L v _ hget
  exact absurd hget (by simp [initState, recGet])

theorem reachable_inv {s : ProviderState} (h : Reachable s) : Inv s := by
  induction h with
  | refl => exact inv_init
  | tail hab hbc ih =>
    cases hbc with
    | tr t => exact inv_translate ih t
    | setLang l hl => exact inv_setLang ih hl
    | batch apiKey resp hT => exact inv_batch ih hT apiKey resp
    | batchCatch hT => exact inv_batchCatch ih

/-! ### Merge lemmas for the failure path -/

theorem translateBatch_fail {texts : List String} {lang : String}
    {apiKey : Option String} {resp : RemoteResp (List String)}
    (h : resp.isFail = true) :
    translateBatch texts lang apiKey resp = texts := by
  cases apiKey with
  | none => rfl
  | some k => cases resp with
    | netError => rfl
    | noText => rfl
    | parseError => rfl
    | parsed xs => exact nomatch h

theorem mergeResults_frame {lang : String} :
    ∀ (ts rs : List String) (m : List (String × String)) (t : String),
      t ∉ ts →
      recGet (mergeResults lang ts rs m) (getCacheKey t lang)
        = recGet m (getCacheKey t lang) := by
  intro ts
  induction ts with
  | nil => intro rs m t _; rfl
  | cons u ts ih =>
    intro rs m t ht
    cases rs with
    | nil => rfl
    | cons r rs =>
      have hstep : mergeResults lang (u :: ts) (r :: rs) m
          = mergeResults lang ts rs
              (if r = "" then m else (getCacheKey u lang, r) :: m) := rfl
      rw [hstep, ih rs _ t (fun hc => ht (List.mem_cons_of_mem _ hc))]
      by_cases hr : r = ""
      · rw [if_pos hr]
      · rw [if_neg hr, recGet_cons, if_neg ?_]
        intro hc
        exact ht (getCacheKey_inj_text hc ▸ List.mem_cons_self u ts)

theorem mergeResults_identity {lang : String} :
    ∀ (ts : List String) (m : List (String × String)) (t : String),
      t ∈ ts → t ≠ "" →
      recGet (mergeResults lang ts ts m) (getCacheKey t lang) = some t := by
  intro ts
  induction ts with
  | nil => intro m t ht _; exact absurd ht (List.not_mem_nil t)
  | cons u ts ih =>
    intro m t ht hne
    have hstep : mergeResults lang (u :: ts) (u :: ts) m
        = mergeResults lang ts ts
            (if u = "" then m else (getCacheKey u lang, u) :: m) := rfl
    rw [hstep]
    by_cases hts : t ∈ ts
    · exact ih _ t hts hne
    · have htu : t = u := by
        rcases List.mem_cons.mp ht with h | h
        · exact h
        · exact absurd h hts
      subst htu
      rw [mergeResults_frame ts ts _ t hts, if_neg hne, recGet_cons, if_pos rfl]

/-! ### Claim theorems -/

/-- Claim C10 (confirmed): calling `setLanguage` with the language that is
already current is a no-op — the current language, the translation cache,
the pending set and the `isTranslating` flag are all left unchanged
(`handleSetLanguage` returns on the `lang === language` guard before any
state update). -/
theorem claim_C10 (s : ProviderState) : handleSetLanguage s s.language = s := by
  rw [handleSetLanguage, if_pos rfl]

/-- Claim C4 (confirmed): when the current language is English, `translate`
returns its argument and leaves the state (cache and pending set included)
unchanged; and in every reachable provider state the cache has no entry
under a key formed with language `"English"`, so no English cache key is
ever created by any operation of the provider. -/
theorem claim_C4 :
    (∀ (s : ProviderState) (t : String), s.language = "English" →
      translate s t = (t, s)) ∧
    (∀ s : ProviderState, Reachable s → ∀ t : String,
      recGet s.cache (getCacheKey t "English") = none) := by
  constructor
  · intro s t h
    exact translate_passthrough (Or.inl h)
  · intro s hreach t
    obtain ⟨h1, h2, h3, h4⟩ := reachable_inv hreach
    cases hget : recGet s.cache (getCacheKey t "English") with
    | none => rfl
    | some v =>
      obtain ⟨_, _, hne⟩ := h4 t "English" v (by decide) hget
      exact absurd rfl hne

/-- Witness for C4 at concrete inputs: pass-through for `"Shop"` in an
English-language state, and no English cache key in the initial state. -/
theorem claim_C4_witness :
    translate initState "Shop" = ("Shop", initState) ∧
    recGet initState.cache (getCacheKey "Shop" "English") = none :=
  ⟨claim_C4.1 initState "Shop" rfl,
   claim_C4.2 initState Relation.ReflTransGen.refl "Shop"⟩

/-- Claim C2 (confirmed): if the cache of a reachable provider state holds an
entry keyed by the current non-English language `L` and a text `T`, then
`translate T` returns exactly that cached value and leaves the state
unchanged — in particular `T` is not added to the pending set, so no remote
request will ever be issued for it. (Reachability supplies the invariant
that cached values are non-empty, hence JS-truthy, and that cached texts are
non-empty and non-exempt.) -/
theorem claim_C2 (s : ProviderState) (T L v : String)
    (hreach : Reachable s) (hcur : s.language = L) (hL : L ≠ "English")
    (hcache : recGet s.cache (getCacheKey T L) = some v) :
    translate s T = (v, s) := by
  obtain ⟨h1, h2, h3, h4⟩ := reachable_inv hreach
  have hLcodes : L ∈ langCodes := hcur ▸ h1
  obtain ⟨hv, hTgood, _⟩ := h4 T L v hLcodes hcache
  have hg : ¬(s.language = "English" ∨ T = "") := by
    rintro (h | h)
    · exact hL (hcur ▸ h)
    · exact hTgood.1 h
  have hget : truthyGet s.cache (getCacheKey T s.language) = some v := by
    rw [hcur, truthyGet, hcache]
    exact if_neg hv
  exact translate_hit hg hTgood.2 hget

def s1c : ProviderState := ⟨"French", [], [], true⟩

def s2c : ProviderState := ⟨"French", [], ["Shop"], true⟩

def s3c : ProviderState := ⟨"French", [("French|Shop", "Boutique")], ["Shop"], false⟩

/-- Witness for C2: after selecting French, rendering `"Shop"` and resolving
the batch with `["Boutique"]`, the cached value is returned verbatim. -/
theorem claim_C2_witness : translate s3c "Shop" = ("Boutique", s3c) := by
  have h1 : handleSetLanguage initState "French" = s1c := by decide
  have r1 : Reachable s1c :=
    Relation.ReflTransGen.tail Relation.ReflTransGen.refl
      (h1 ▸ Step.setLang initState "French" (by decide))
  have h2 : (translate s1c "Shop").2 = s2c := by decide
  have r2 : Reachable s2c :=
    Relation.ReflTransGen.tail r1 (h2 ▸ Step.tr s1c "Shop")
  have h3 : processTranslations s2c (some "k") (RemoteResp.parsed ["Boutique"]) = s3c := by
    decide
  have r3 : Reachable s3c :=
    Relation.ReflTransGen.tail r2
      (h3 ▸ Step.batch s2c (some "k") (RemoteResp.parsed ["Boutique"]) (by decide))
  exact claim_C2 s3c "Shop" "French" "Boutique" r3 rfl (by decide) (by decide)

/-- Claim C3 (confirmed): for a non-empty, non-exempt text with no cache
entry for the current non-English language, the first `translate` call
returns the text unchanged and appends it once to the pending set; a repeated
call before the batch resolves changes nothing, so the pending set holds
exactly one occurrence of the text (`Set` semantics of
`missingTranslations`). -/
theorem claim_C3 (s : ProviderState) (T : String)
    (hT : T ≠ "") (hex : exempt T = false) (hlang : s.language ≠ "English")
    (hmiss : recGet s.cache (getCacheKey T s.language) = none)
    (hpend : T ∉ s.missing) :
    (translate s T).1 = T ∧
    (translate s T).2.missing = s.missing ++ [T] ∧
    (translate s T).2.missing.count T = 1 ∧
    translate (translate s T).2 T = (T, (translate s T).2) := by
  have hg : ¬(s.language = "English" ∨ T = "") := by
    rintro (h | h)
    · exact hlang h
    · exact hT h
  have hget : truthyGet s.cache (getCacheKey T s.language) = none := by
    rw [truthyGet, hmiss]
  have hfirst : translate s T = (T, { s with missing := addToSet s.missing T }) :=
    translate_miss hg hex hget
  have hadd : addToSet s.missing T = s.missing ++ [T] := by
    rw [addToSet, if_neg hpend]
  refine ⟨by rw [hfirst], by rw [hfirst]; exact hadd, ?_, ?_⟩
  · rw [hfirst]
    show (addToSet s.missing T).count T = 1
    rw [hadd, List.count_append]
    rw [List.count_eq_zero.mpr hpend]
    simp
  · rw [hfirst]
    have hmemT : T ∈ addToSet s.missing T := by
      rw [hadd]
      exact List.mem_append.mpr (Or.inr (List.mem_singleton.mpr rfl))
    exact translate_miss_mem hg hex hget hmemT

/-- Witness for C3 at a concrete state: language French, empty cache, empty
pending set, text `"Shop"`. -/
theorem claim_C3_witness :
    (translate s1c "Shop").1 = "Shop" ∧
    (translate s1c "Shop").2.missing = [] ++ ["Shop"] ∧
    (translate s1c "Shop").2.missing.count "Shop" = 1 ∧
    translate (translate s1c "Shop").2 "Shop" = ("Shop", (translate s1c "Shop").2) :=
  claim_C3 s1c "Shop" (by decide) (by decide) (by decide) (by decide) (by decide)

/-- Direct-string-match exemption as the claim words it. Modelled from the
spec: "exempt from translation by direct string match" on the two literals
`"Aura"` and `"Quiet living"`; to be compared with the source predicate
`exempt`. -/
def specExemptByDirectMatch (text : String) : Bool :=
  text == "Aura" || text == "Quiet living"

/-- Counterexample for C5: the source exemption is not a direct string match
on the input text. The string `"Echoes of quiet living"` matches neither
literal, yet `translate` exempts it (returns it unchanged without marking it
pending) because the slogan check is a case-insensitive substring test. -/
theorem claim_C5_counterexample :
    exempt "Echoes of quiet living" = true ∧
    specExemptByDirectMatch "Echoes of quiet living" = false ∧
    translate s1c "Echoes of quiet living" = ("Echoes of quiet living", s1c) := by
  decide

/-- Claim C5 as amended: for every provider state (hence every target
language), `translate` returns any exempt text unchanged with no state
change; a text is exempt when it equals `"Aura"` or when its lowercased form
contains the substring `"quiet living"` — so the two exact literals `"Aura"`
and `"Quiet living"` are never replaced, but the mechanism is exact match
only for the brand name and case-insensitive containment for the slogan. -/
theorem claim_C5_amended (s : ProviderState) (t : String)
    (h : t = "Aura" ∨ strIncludes (jsToLower t) "quiet living" = true) :
    translate s t = (t, s) := by
  have hex : exempt t = true := by
    rcases h with h | h
    · subst h; decide
    · simp [exempt, h]
  exact translate_exempt hex

/-- Witness for C5 (amended), at the literals themselves in a French state. -/
theorem claim_C5_witness :
    translate s1c "Aura" = ("Aura", s1c) ∧
    translate s1c "Quiet living" = ("Quiet living", s1c) :=
  ⟨claim_C5_amended s1c "Aura" (Or.inl rfl),
   claim_C5_amended s1c "Quiet living" (Or.inr (by decide))⟩

def sC1 : ProviderState := ⟨"French", [], ["Shop"], true⟩

/-- Counterexample for C1: a failing batch request does not leave the cache
untouched. In the state with language French and pending text `"Shop"`, a
network error makes `translateBatch` return its input `["Shop"]`, and the
merge then writes the identity entry `French|Shop ↦ Shop` into the
previously empty cache. -/
theorem claim_C1_counterexample :
    (processTranslations sC1 (some "k") RemoteResp.netError).cache ≠ sC1.cache := by
  decide

/-- If the cache maps a (non-empty) text to itself under the current
language, `translate` displays the text itself, whichever branch it takes. -/
theorem translate_fst_of_identity (u : ProviderState) (t : String)
    (hrec : t ≠ "" → recGet u.cache (getCacheKey t u.language) = some t) :
    (translate u t).1 = t := by
  by_cases hg : u.language = "English" ∨ t = ""
  · rw [translate_passthrough hg]
  · by_cases hex : exempt t = true
    · rw [translate_exempt hex]
    · have hex2 : exempt t = false := by
        cases hfe : exempt t
        · rfl
        · exact absurd hfe hex
      have hne : t ≠ "" := fun hc => hg (Or.inr hc)
      have hget : truthyGet u.cache (getCacheKey t u.language) = some t := by
        rw [truthyGet, hrec hne]
        exact if_neg hne
      rw [translate_hit hg hex2 hget]

/-- Claim C1 as amended: when the debounced batch request fails inside
`translateBatch` (network error, empty response, or JSON parse error), the
batch resolves to the input texts themselves, so the merge populates the
cache with an identity entry for every affected (needed) non-empty text
rather than leaving the cache untouched; every affected text still resolves
to its original-language form via `translate` afterwards (now served from
the cache), and no retry is scheduled. -/
theorem claim_C1_amended (s : ProviderState) (apiKey : Option String)
    (resp : RemoteResp (List String)) (hfail : resp.isFail = true)
    (t : String) (ht : t ∈ neededOf s) :
    (translate (processTranslations s apiKey resp) t).1 = t ∧
    (t ≠ "" →
      recGet (processTranslations s apiKey resp).cache (getCacheKey t s.language)
        = some t) := by
  have hn : neededOf s ≠ [] := List.ne_nil_of_mem ht
  have hbatch : translateBatch (neededOf s) s.language apiKey resp = neededOf s :=
    translateBatch_fail hfail
  have hstate : processTranslations s apiKey resp
      = { s with isTranslating := false,
                 cache := mergeResults s.language (neededOf s) (neededOf s) s.cache } := by
    rw [processTranslations, if_neg hn, hbatch]
  rw [hstate]
  refine ⟨?_, ?_⟩
  · apply translate_fst_of_identity
    intro hne
    exact mergeResults_identity (neededOf s) s.cache t ht hne
  · intro hne
    exact mergeResults_identity (neededOf s) s.cache t ht hne

/-- Witness for C1 (amended) at the concrete failing run: the pending text
`"Shop"` still renders as `"Shop"` and now owns an identity cache entry. -/
theorem claim_C1_witness :
    (translate (processTranslations sC1 (some "k") RemoteResp.netError) "Shop").1 = "Shop" ∧
    ("Shop" ≠ "" →
      recGet (processTranslations sC1 (some "k") RemoteResp.netError).cache
        (getCacheKey "Shop" sC1.language) = some "Shop") :=
  claim_C1_amended sC1 (some "k") RemoteResp.netError (by decide) "Shop" (by decide)

/-- The checkout component's initial state (Checkout.tsx lines 25–41). -/
def checkoutInit : CheckoutState :=
  { zipCode := "", suggestions := [], showSuggestions := false,
    selectedCountry := "", shippingCost := 0, shippingDetails := none,
    isShippingCalculated := false, isCalculating := false, isLookingUp := false }

def sixLocs : List LocationSuggestion :=
  [⟨"98121", "Seattle", "USA", "WA"⟩, ⟨"98121", "Messina", "Italy", "ME"⟩,
   ⟨"98121", "Alfa", "Svalbard", "R1"⟩, ⟨"98121", "Bravo", "Svalbard", "R2"⟩,
   ⟨"98121", "Carlo", "Svalbard", "R3"⟩, ⟨"98121", "Delta", "Svalbard", "R4"⟩]

/-- Counterexample for C6: the ≤ 5 bound on the suggestion list is not
enforced by the code — the bound exists only in the prompt text. If the
parsed response carries six locations for the ≥ 3-character input
`"98121"`, all six become the suggestion list. -/
theorem claim_C6_counterexample :
    ¬((zipLookupResolve (handleZipChange checkoutInit "98121").1
        (lookupZipLocation "98121" (some "k") (RemoteResp.parsed sixLocs))).suggestions.length
      ≤ 5) := by
  decide

/-- Claim C6 as amended: an input of length ≥ 3 schedules the debounced
lookup of the typed value and, when it resolves, the suggestion list is
exactly the list `lookupZipLocation` returned (no local truncation — it has
at most 5 entries only when the remote response does); an input of length
< 3 schedules no lookup and clears the suggestion list. -/
theorem claim_C6_amended (s : CheckoutState) (val : String)
    (apiKey : Option String) (resp : RemoteResp (List LocationSuggestion)) :
    (3 ≤ val.length →
      (handleZipChange s val).2 = some val ∧
      (zipLookupResolve (handleZipChange s val).1
          (lookupZipLocation val apiKey resp)).suggestions
        = lookupZipLocation val apiKey resp) ∧
    (val.length < 3 →
      (handleZipChange s val).2 = none ∧
      (handleZipChange s val).1.suggestions = [] ∧
      (handleZipChange s val).1.showSuggestions = false) := by
  constructor
  · intro h
    rw [handleZipChange, if_pos h]
    exact ⟨rfl, rfl⟩
  · intro h
    rw [handleZipChange, if_neg (Nat.not_le_of_lt h)]
    exact ⟨rfl, rfl, rfl⟩

/-- Witness for C6 (amended): `"98121"` (length 5) schedules a lookup whose
parsed result becomes the suggestions; `"12"` (length 2) schedules none and
clears the list. -/
theorem claim_C6_witness :
    ((handleZipChange checkoutInit "98121").2 = some "98121" ∧
      (zipLookupResolve (handleZipChange checkoutInit "98121").1
          (lookupZipLocation "98121" (some "k") (RemoteResp.parsed sixLocs))).suggestions
        = lookupZipLocation "98121" (some "k") (RemoteResp.parsed sixLocs)) ∧
    ((handleZipChange checkoutInit "12").2 = none ∧
      (handleZipChange checkoutInit "12").1.suggestions = [] ∧
      (handleZipChange checkoutInit "12").1.showSuggestions = false) :=
  ⟨(claim_C6_amended checkoutInit "98121" (some "k")
      (RemoteResp.parsed sixLocs)).1 (by decide),
   (claim_C6_amended checkoutInit "12" (some "k")
      (RemoteResp.parsed sixLocs)).2 (by decide)⟩

/-- Claim C7 (confirmed): when the shipping estimate fails — the call
resolves to `null` (which covers every remote failure, since
`calculateShippingEstimate` catches internally) or throws — the checkout
sets the fixed fallback cost 25, marks the estimation complete, and leaves
`shippingDetails` at `null`, so the displayed currency falls back to USD
with exchange rate 1. -/
theorem claim_C7 (s : CheckoutState) (zip country : String)
    (city apiKey : Option String) (resp : RemoteResp ShippingEstimate)
    (hfail : calculateShippingEstimate zip country city apiKey resp = none) :
    ((handleCalculateShipping s
        (CallResult.ok (calculateShippingEstimate zip country city apiKey resp))).shippingCost = 25 ∧
      (handleCalculateShipping s
        (CallResult.ok (calculateShippingEstimate zip country city apiKey resp))).isShippingCalculated = true ∧
      (handleCalculateShipping s
        (CallResult.ok (calculateShippingEstimate zip country city apiKey resp))).shippingDetails = none ∧
      activeCurrency (handleCalculateShipping s
        (CallResult.ok (calculateShippingEstimate zip country city apiKey resp))) = "USD" ∧
      exchangeRateOf (handleCalculateShipping s
        (CallResult.ok (calculateShippingEstimate zip country city apiKey resp))) = 1) ∧
    ((handleCalculateShipping s CallResult.thrown).shippingCost = 25 ∧
      (handleCalculateShipping s CallResult.thrown).isShippingCalculated = true ∧
      (handleCalculateShipping s CallResult.thrown).shippingDetails = none ∧
      activeCurrency (handleCalculateShipping s CallResult.thrown) = "USD" ∧
      exchangeRateOf (handleCalculateShipping s CallResult.thrown) = 1) := by
  rw [hfail]
  exact ⟨⟨rfl, rfl, rfl, rfl, rfl⟩, ⟨rfl, rfl, rfl, rfl, rfl⟩⟩

/-- Witness for C7 at a concrete failing call (network error). -/
theorem claim_C7_witness :
    ((handleCalculateShipping checkoutInit
        (CallResult.ok (calculateShippingEstimate "98121" "USA" (some "Seattle")
          (some "k") RemoteResp.netError))).shippingCost = 25 ∧
      (handleCalculateShipping checkoutInit
        (CallResult.ok (calculateShippingEstimate "98121" "USA" (some "Seattle")
          (some "k") RemoteResp.netError))).isShippingCalculated = true ∧
      (handleCalculateShipping checkoutInit
        (CallResult.ok (calculateShippingEstimate "98121" "USA" (some "Seattle")
          (some "k") RemoteResp.netError))).shippingDetails = none ∧
      activeCurrency (handleCalculateShipping checkoutInit
        (CallResult.ok (calculateShippingEstimate "98121" "USA" (some "Seattle")
          (some "k") RemoteResp.netError))) = "USD" ∧
      exchangeRateOf (handleCalculateShipping checkoutInit
        (CallResult.ok (calculateShippingEstimate "98121" "USA" (some "Seattle")
          (some "k") RemoteResp.netError))) = 1) ∧
    ((handleCalculateShipping checkoutInit CallResult.thrown).shippingCost = 25 ∧
      (handleCalculateShipping checkoutInit CallResult.thrown).isShippingCalculated = true ∧
      (handleCalculateShipping checkoutInit CallResult.thrown).shippingDetails = none ∧
      activeCurrency (handleCalculateShipping checkoutInit CallResult.thrown) = "USD" ∧
      exchangeRateOf (handleCalculateShipping checkoutInit CallResult.thrown) = 1) :=
  claim_C7 checkoutInit "98121" "USA" (some "Seattle") (some "k")
    RemoteResp.netError (by decide)

def oracleCE : GeminiOracle :=
  { firstSend := CallResult.ok (some ⟨"edit_image", "add a cat"⟩, "on it"),
    imageGenParts := CallResult.thrown,
    toolRespSuccess := CallResult.ok "done",
    toolRespFailure := CallResult.ok "I could not edit the image this time." }

/-- Counterexample for C8: there is an execution with a failing remote call
in which `sendMessageToGemini` does not return the static apology. The
image-generation call throws; `generateImageWithNanoBanana` catches it and
the function instead reports the failure to the model and returns the
model's follow-up text. -/
theorem claim_C8_counterexample :
    oracleCE.imageGenParts = CallResult.thrown ∧
    sendMessageToGemini [] "add a cat" none (some "k") oracleCE
      = ⟨"I could not edit the image this time.", none⟩ ∧
    sendMessageToGemini [] "add a cat" none (some "k") oracleCE
      ≠ ⟨apologyText, none⟩ := by
  decide

/-- Claim C8 as amended: no exported service function propagates an
exception (each returns a plain value for every outcome); on failure
`translateBatch` returns its input texts and `lookupZipLocation` returns the
empty list; `sendMessageToGemini` returns the static apology whenever an
exception escapes its body (the chat send throwing), but a failing
image-generation remote call is caught inside `generateImageWithNanoBanana`
and answered with the model's follow-up text instead of the apology. -/
theorem claim_C8_amended :
    (∀ (texts : List String) (lang k : String) (resp : RemoteResp (List String)),
      resp.isFail = true → translateBatch texts lang (some k) resp = texts) ∧
    (∀ (zip k : String) (resp : RemoteResp (List LocationSuggestion)),
      resp.isFail = true → lookupZipLocation zip (some k) resp = []) ∧
    (∀ (hist : List (String × String)) (msg : String) (img : Option String)
        (k : String) (o : GeminiOracle),
      o.firstSend = CallResult.thrown →
      sendMessageToGemini hist msg img (some k) o = ⟨apologyText, none⟩) ∧
    (∀ (hist : List (String × String)) (msg : String) (img : Option String)
        (k : String) (o : GeminiOracle) (fc : FunctionCall) (txt reply : String),
      o.firstSend = CallResult.ok (some fc, txt) → fc.name = "edit_image" →
      o.imageGenParts = CallResult.thrown →
      o.toolRespFailure = CallResult.ok reply →
      sendMessageToGemini hist msg img (some k) o = ⟨reply, none⟩) := by
  refine ⟨?_, ?_, ?_, ?_⟩
  · intro texts lang k resp h
    exact translateBatch_fail h
  · intro zip k resp h
    cases resp with
    | netError => rfl
    | noText => rfl
    | parseError => rfl
    | parsed xs => exact nomatch h
  · intro hist msg img k o h
    rw [sendMessageToGemini, h]
  · intro hist msg img k o fc txt reply h1 h2 h3 h4
    rw [sendMessageToGemini, h1, h3, h4]
    simp [h2, generateImageWithNanoBanana]

/-- Witness for C8 (amended), applying all four parts at concrete inputs. -/
theorem claim_C8_witness :
    translateBatch ["Shop"] "French" (some "k") RemoteResp.netError = ["Shop"] ∧
    lookupZipLocation "98121" (some "k") RemoteResp.parseError = [] ∧
    sendMessageToGemini [] "hello" none (some "k")
      { firstSend := CallResult.thrown, imageGenParts := CallResult.thrown,
        toolRespSuccess := CallResult.thrown, toolRespFailure := CallResult.thrown }
      = ⟨apologyText, none⟩ ∧
    sendMessageToGemini [] "add a cat" none (some "k") oracleCE
      = ⟨"I could not edit the image this time.", none⟩ :=
  ⟨claim_C8_amended.1 ["Shop"] "French" "k" RemoteResp.netError rfl,
   claim_C8_amended.2.1 "98121" "k" RemoteResp.parseError rfl,
   claim_C8_amended.2.2.1 [] "hello" none "k" _ rfl,
   claim_C8_amended.2.2.2 [] "add a cat" none "k" oracleCE
     ⟨"edit_image", "add a cat"⟩ "on it" "I could not edit the image this time."
     rfl rfl rfl rfl⟩

/-- Claim C9 (confirmed): with no API key in process configuration, every
service function returns its designated fallback — for every possible remote
outcome, i.e. without the result depending on any remote interaction:
`sendMessageToGemini` the fixed message naming the missing key,
`translateBatch` its input texts, `lookupZipLocation` the empty list, and
`calculateShippingEstimate` `null`. -/
theorem claim_C9 (hist : List (String × String)) (msg : String)
    (img : Option String) (o : GeminiOracle) (texts : List String)
    (lang : String) (rT : RemoteResp (List String)) (zip country : String)
    (rz : RemoteResp (List LocationSuggestion)) (city : Option String)
    (re : RemoteResp ShippingEstimate) :
    sendMessageToGemini hist msg img none o = ⟨missingKeyText, none⟩ ∧
    translateBatch texts lang none rT = texts ∧
    lookupZipLocation zip none rz = [] ∧
    calculateShippingEstimate zip country city none re = none :=
  ⟨rfl, rfl, rfl, rfl⟩

end Aura
